import Mathlib

/-!
Verification of the subscriber-registry and notification-dispatch core of the
bot-tele repository (files `bot.py`, `db.py`, `notify_api.py`).

The Python code is shallowly embedded:

* a Python `dict` of subscriber metadata becomes an association list
  `MetaMap := List (String × Option String)` (all metadata values in the
  modelled paths are strings or `None`); `dict.get` returns `none` both for a
  missing key and for a stored `None`, exactly like Python's `.get`;
* the JSON subscribers file becomes the inductive `FileData` together with an
  explicit file-system state `FS` (main file plus backup files), so that the
  corruption-recovery and legacy-migration side effects of
  `_load_subscribers_map` are observable;
* the relational backend (`db.py`) becomes a table `DB := List (Nat × Row)`;
  datetimes are carried as opaque strings and `_parse_iso_datetime` (which can
  fail and return `None`) is passed in as an oracle `parse : String → Option
  String`;
* Python truthiness on optional strings (`if first_name:` is false for both
  `None` and `""`) is `truthy`; Python `str.lower` and substring `in` are
  modelled by `pyLower`/`pyContains` on the character lists;
* every function is total: the `try/except` blocks of the source that turn
  exceptions into return values (`_send_to`, the corrupt-file branch of
  `_load_subscribers_map`) are embedded as the corresponding total branches.
-/

namespace BotTele

/-! ## Association lists with Python-dict semantics -/

/-- Lookup in an association list (first binding wins, like a Python dict,
whose keys are unique). -/
def aget {κ ν : Type} [BEq κ] : List (κ × ν) → κ → Option ν
  | [], _ => none
  | (k, v) :: rest, q => if k == q then some v else aget rest q

/-- `d[k] = v` on a Python dict: overwrite the binding in place if the key is
present, otherwise append the new binding at the end (insertion order). -/
def aset {κ ν : Type} [BEq κ] : List (κ × ν) → κ → ν → List (κ × ν)
  | [], q, w => [(q, w)]
  | (k, v) :: rest, q, w => if k == q then (q, w) :: rest else (k, v) :: aset rest q w

/-! ## Python string helpers -/

/-- Python `str.lower()` (character-wise lowering of the code points). -/
def pyLower (s : String) : String := String.mk (s.data.map Char.toLower)

/-- Contiguous-subsequence test on character lists, the meaning of Python's
`needle in hay` on strings. -/
def segIn (needle : List Char) : List Char → Bool
  | [] => needle.isEmpty
  | c :: t => needle.isPrefixOf (c :: t) || segIn needle t

/-- Python `needle in hay` for strings. -/
def pyContains (hay needle : String) : Bool := segIn needle.data hay.data

/-- Python slicing `s[:n]` (by code points). -/
def strTake (n : Nat) (s : String) : String := String.mk (s.data.take n)

/-- Python truthiness of an optional string: `None` and `""` are falsy. -/
def truthy : Option String → Bool
  | none => false
  | some s => !(s == "")

/-- Python truthiness of an optional integer: `None` and `0` are falsy. -/
def truthyNat : Option Nat → Bool
  | none => false
  | some n => !(n == 0)

/-! ## Subscriber metadata dictionaries -/

/-- One subscriber metadata record, as the Python code passes it around: a
dict whose values are strings or `None`. -/
abbrev MetaMap := List (String × Option String)

/-- `meta.get(k)`: `none` for a missing key and for a stored `None`. -/
def dget (m : MetaMap) (k : String) : Option String := (aget m k).join

/-- `meta[k] = v`. -/
def dset (m : MetaMap) (k : String) (v : Option String) : MetaMap := aset m k v

/-- The key list of a metadata dict. -/
def dkeys (m : MetaMap) : List String := m.map Prod.fst

/-- Python `k in meta`. -/
def hasKey (m : MetaMap) (k : String) : Bool := (aget m k).isSome

/-- The in-memory subscribers mapping `chat_id -> metadata`. -/
abbrev SubsMap := List (Nat × MetaMap)

/-! ## File-backed registry (`bot.py`) -/

/-- The parsed content of the subscribers file, as `_load_subscribers_map`
distinguishes it: absent file, zero-size file, unparsable JSON, legacy bare
list of ids, dict of records, or some other JSON value. -/
inductive FileData where
  | missing
  | empty
  | corrupt
  | legacy (ids : List Nat)
  | jdict (entries : List (Nat × MetaMap))
  | other
deriving Repr, DecidableEq

/-- The bit of file system the registry touches: the subscribers file at
`path` plus any backup files created by corruption recovery. -/
structure FS where
  path : String
  main : FileData
  backups : List (String × FileData)
deriving Repr, DecidableEq

/-- The entry normalization inside the dict branch of `_load_subscribers_map`
(`bot.py`, `_norm`): exactly the five known keys, anything else dropped. -/
def loadNorm (m : MetaMap) : MetaMap :=
  [("first_name", dget m "first_name"),
   ("last_name", dget m "last_name"),
   ("username", dget m "username"),
   ("subscribed_at", dget m "subscribed_at"),
   ("updated_at", dget m "updated_at")]

/-- The per-record normalization of `_save_subscribers_map` (`bot.py`,
lines 131-140): exactly the five known keys, anything else dropped. -/
def saveNorm (m : MetaMap) : MetaMap :=
  [("first_name", dget m "first_name"),
   ("last_name", dget m "last_name"),
   ("username", dget m "username"),
   ("subscribed_at", dget m "subscribed_at"),
   ("updated_at", dget m "updated_at")]

/-- `_save_subscribers_map` (`bot.py`): serialize the map, each record
normalized to the five-key shape, to the subscribers file. -/
def save_subscribers_map (fs : FS) (subs : SubsMap) : FS :=
  { fs with main := FileData.jdict (subs.map (fun p => (p.1, saveNorm p.2))) }

/-- The record built for a legacy bare-list entry (`bot.py`, line 78). -/
def legacyRecord (now : String) : MetaMap :=
  [("first_name", none), ("last_name", none), ("username", none),
   ("subscribed_at", some now)]

/-- `_load_subscribers_map` (`bot.py`, lines 40-115).  `now` is the current
UTC time in ISO form (used as the legacy migration timestamp), `ts` the
compact timestamp used in the name of a corruption backup. -/
def load_subscribers_map (fs : FS) (now ts : String) : FS × SubsMap :=
  match fs.main with
  | FileData.missing => (fs, [])
  | FileData.empty => (fs, [])
  | FileData.corrupt =>
      -- rename the corrupt file to a timestamped backup, then write a fresh
      -- empty store to the original path; never propagate the decode error
      let fs1 : FS :=
        { fs with main := FileData.missing,
                  backups := fs.backups ++ [(fs.path ++ ".corrupt-" ++ ts, FileData.corrupt)] }
      (save_subscribers_map fs1 [], [])
  | FileData.legacy ids =>
      let subs := ids.foldl (fun acc cid => aset acc cid (legacyRecord now)) []
      (save_subscribers_map fs subs, subs)
  | FileData.jdict entries =>
      let subs := entries.foldl (fun acc p => aset acc p.1 (loadNorm p.2)) []
      let needsWrite := entries.any (fun p => !(hasKey p.2 "last_name"))
      (if needsWrite then save_subscribers_map fs subs else fs, subs)
  | FileData.other => (fs, [])

/-- One `if value and meta.get(key) != value:` block of `add_subscriber`
(`bot.py`, lines 160-168): write the field when the gate holds and the stored
value differs, and report whether a write happened. -/
def setIfChanged (m : MetaMap) (key : String) (v : Option String) (gate : Bool) :
    MetaMap × Bool :=
  if gate && (dget m key != v) then (dset m key v, true) else (m, false)

/-- The change-gated in-place mutation of an existing record inside
`add_subscriber` (`bot.py`, lines 158-168): each truthy supplied field that
differs from the stored value is written, and the `updated` flag records
whether anything was written. -/
def add_update (meta : MetaMap) (first_name username last_name : Option String) :
    MetaMap × Bool :=
  let s1 := setIfChanged meta "first_name" first_name (truthy first_name)
  let s2 := setIfChanged s1.1 "last_name" last_name (truthy last_name)
  let s3 := setIfChanged s2.1 "username" username (truthy username)
  (s3.1, s1.2 || s2.2 || s3.2)

/-- The in-memory part of `add_subscriber` (`bot.py`, lines 153-182), after
the initial load: returns the updated map together with the flag saying
whether `_save_subscribers_map` is invoked (`True` on creation and on a
changed update, `False` on a no-op update).  Argument order follows the
source: `chat_id, first_name, username, last_name`. -/
def add_subscriber_core (subs : SubsMap) (now : String) (chat_id : Nat)
    (first_name username last_name : Option String) : SubsMap × Bool :=
  match aget subs chat_id with
  | some meta =>
      let r := add_update meta first_name username last_name
      if r.2 then
        (aset subs chat_id (dset r.1 "updated_at" (some now)), true)
      else (subs, false)
  | none =>
      (aset subs chat_id
        [("first_name", first_name), ("last_name", last_name),
         ("username", username), ("subscribed_at", some now)], true)

/-- `add_subscriber` (`bot.py`): load, update in memory, persist only when
something changed or a record was created. -/
def add_subscriber (fs : FS) (nowLoad ts now : String) (chat_id : Nat)
    (first_name username last_name : Option String) : FS :=
  let r0 := load_subscribers_map fs nowLoad ts
  let r1 := add_subscriber_core r0.2 now chat_id first_name username last_name
  if r1.2 then save_subscribers_map r0.1 r1.1 else r0.1

/-! ## Relational registry (`db.py`) -/

/-- One row of the `subscribers` table.  Timestamps are carried as opaque
strings (the ISO rendering used throughout the repository). -/
structure Row where
  first_name : Option String
  last_name : Option String
  username : Option String
  nip : Option String
  subscribed_at : Option String
  updated_at : Option String
deriving Repr, DecidableEq

/-- The table, keyed by chat id. -/
abbrev DB := List (Nat × Row)

/-- `if first_name is not None and obj.first_name != first_name:`
(`db.py`, lines 156-158). -/
def dbSetFirst (row : Row) (v : Option String) : Row × Bool :=
  if v.isSome && (row.first_name != v)
  then ({ row with first_name := v }, true) else (row, false)

/-- `if last_name is not None and obj.last_name != last_name:`
(`db.py`, lines 159-161). -/
def dbSetLast (row : Row) (v : Option String) : Row × Bool :=
  if v.isSome && (row.last_name != v)
  then ({ row with last_name := v }, true) else (row, false)

/-- `if username is not None and obj.username != username:`
(`db.py`, lines 162-164). -/
def dbSetUsername (row : Row) (v : Option String) : Row × Bool :=
  if v.isSome && (row.username != v)
  then ({ row with username := v }, true) else (row, false)

/-- The 18-character cap applied before a nip is stored
(`db.py`, lines 149 and 166-171: truncate when truthy and longer than 18). -/
def nipCap (s : String) : Option String :=
  if !(s == "") && decide (18 < s.data.length)
  then some (strTake 18 s) else some s

/-- `if nip is not None: ...` (`db.py`, lines 165-174): truncate, then write
only when the capped value differs from the stored one. -/
def dbSetNip (row : Row) (nip : Option String) : Row × Bool :=
  match nip with
  | none => (row, false)
  | some s =>
      if row.nip != nipCap s
      then ({ row with nip := nipCap s }, true) else (row, false)

/-- The change-gated mutation of an existing row inside `upsert_subscriber`
(`db.py`, lines 155-174): fields supplied as non-`None` that differ from the
stored value are written (the nip after 18-character truncation), and the
`updated` flag records whether anything was written. -/
def db_row_update (row : Row)
    (first_name last_name username nip : Option String) : Row × Bool :=
  let s1 := dbSetFirst row first_name
  let s2 := dbSetLast s1.1 last_name
  let s3 := dbSetUsername s2.1 username
  let s4 := dbSetNip s3.1 nip
  (s4.1, s1.2 || s2.2 || s3.2 || s4.2)

/-- `upsert_subscriber` (`db.py`, lines 135-177).  `parse` is the
`_parse_iso_datetime` oracle (it may fail, yielding `none`); the returned
flag records whether a row was inserted or modified (the source's
`session.add` call: always on creation, and on update exactly when the
source's `updated` flag is set). -/
def upsert_subscriber (parse : String → Option String) (db : DB) (now : String)
    (chat_id : Nat)
    (first_name last_name username nip subscribed_at : Option String) :
    DB × Bool :=
  match aget db chat_id with
  | none =>
      let sat : Option String :=
        if truthy subscribed_at then parse (subscribed_at.getD "") else some now
      let nipv : Option String :=
        match nip with
        | some s => nipCap s
        | none => none
      (aset db chat_id
        { first_name := first_name, last_name := last_name,
          username := username, nip := nipv,
          subscribed_at := sat, updated_at := some now }, true)
  | some row =>
      let r := db_row_update row first_name last_name username nip
      if r.2 then
        (aset db chat_id { r.1 with updated_at := some now }, true)
      else (db, false)

/-- `save_subscribers_map` (`db.py`, lines 180-211): bulk upsert of a whole
mapping inside one transaction. -/
def db_save_subscribers_map (parse : String → Option String) (db : DB)
    (now : String) (subs : List (Nat × MetaMap)) : DB :=
  subs.foldl
    (fun acc p =>
      let cid := p.1
      let meta := p.2
      let nipv : Option String :=
        match dget meta "nip" with
        | some s => nipCap s
        | none => none
      match aget acc cid with
      | none =>
          let sat : Option String :=
            match dget meta "subscribed_at" with
            | some s => parse s
            | none => none
          let upd : Option String :=
            match dget meta "updated_at" with
            | some s => parse s
            | none => none
          aset acc cid
            { first_name := dget meta "first_name",
              last_name := dget meta "last_name",
              username := dget meta "username", nip := nipv,
              subscribed_at := some (sat.getD now),
              updated_at := some (upd.getD now) }
      | some row =>
          let upd : Option String :=
            match dget meta "updated_at" with
            | some s => parse s
            | none => none
          aset acc cid
            { row with
              first_name := dget meta "first_name",
              last_name := dget meta "last_name",
              username := dget meta "username", nip := nipv,
              updated_at := some (upd.getD now) })
    db

/-! ## HTTP layer (`notify_api.py`) -/

/-- Modelled from the spec: `notify_api.py` imports `_normalize_nip` from the
bot module, but the bot snapshot provided under `src/` does not define it.
Per the spec, an identifier is truncated to 18 characters before storage and
truncation is never an error. -/
def normalize_nip (s : String) : String := strTake 18 s

/-- The body of `PUT /subscribers/chat_id` (`update_subscriber`,
`notify_api.py`, lines 123-139) after the initial load: build the new record
(starting from the stored one, or `{}` for an unknown id), always stamping
`updated_at`; returns the updated map and the record echoed to the caller. -/
def update_subscriber_core (subs : SubsMap) (now : String) (chat_id : Nat)
    (first_name last_name username nip : Option String) : SubsMap × MetaMap :=
  let meta := (aget subs chat_id).getD []
  let m1 := match first_name with
            | some _ => dset meta "first_name" first_name
            | none => meta
  let m2 := match last_name with
            | some _ => dset m1 "last_name" last_name
            | none => m1
  let m3 := match username with
            | some _ => dset m2 "username" username
            | none => m2
  let m4 := match nip with
            | some s => dset m3 "nip" (some (normalize_nip s))
            | none => m3
  let m5 := dset m4 "updated_at" (some now)
  (aset subs chat_id m5, m5)

/-- `PUT /subscribers/chat_id` end to end: load, rebuild the record, persist
through the file backend's `_save_subscribers_map`. -/
def update_subscriber (fs : FS) (nowLoad ts now : String) (chat_id : Nat)
    (first_name last_name username nip : Option String) : FS × MetaMap :=
  let r0 := load_subscribers_map fs nowLoad ts
  let r1 := update_subscriber_core r0.2 now chat_id first_name last_name username nip
  (save_subscribers_map r0.1 r1.1, r1.2)

/-- The chat profile returned by the Messenger's `get_chat`. -/
structure ChatProfile where
  first_name : Option String
  last_name : Option String
  username : Option String
deriving Repr, DecidableEq

/-- `POST /subscribers/chat_id/sync` (`notify_api.py`, lines 142-162).
`getChat` is the Messenger oracle: `none` models the failed fetch, answered
with 404 before anything is loaded or written. -/
def sync_subscriber (fs : FS) (nowLoad ts now : String)
    (getChat : Option ChatProfile) (chat_id : Nat) : FS × Option MetaMap :=
  match getChat with
  | none => (fs, none)
  | some chat =>
      let r0 := load_subscribers_map fs nowLoad ts
      let meta := (aget r0.2 chat_id).getD []
      let m1 := dset meta "first_name" chat.first_name
      let m2 := dset m1 "last_name" chat.last_name
      let m3 := dset m2 "username" chat.username
      let m4 := dset m3 "updated_at" (some now)
      (save_subscribers_map r0.1 (aset r0.2 chat_id m4), some m4)

/-- The body of `POST /notify` (`NotifyRequest`, `notify_api.py`). -/
structure NotifyRequest where
  message : String
  chat_id : Option Nat
  username : Option String
  first_name : Option String
  last_name : Option String
  nip : Option String
deriving Repr, DecidableEq

/-- The username criterion of `notify` (line 86): record truthy, stored
username truthy, and exact case-insensitive match. -/
def matchUsername (q : String) (m : MetaMap) : Bool :=
  !m.isEmpty &&
    (match dget m "username" with
     | some u => !(u == "") && (pyLower u == pyLower q)
     | none => false)

/-- The first-name criterion of `notify` (line 89): case-insensitive
substring match. -/
def matchFirst (q : String) (m : MetaMap) : Bool :=
  !m.isEmpty &&
    (match dget m "first_name" with
     | some u => !(u == "") && pyContains (pyLower u) (pyLower q)
     | none => false)

/-- The last-name criterion of `notify` (line 92). -/
def matchLast (q : String) (m : MetaMap) : Bool :=
  !m.isEmpty &&
    (match dget m "last_name" with
     | some u => !(u == "") && pyContains (pyLower u) (pyLower q)
     | none => false)

/-- The nip criterion of `notify` (line 99): exact, case-sensitive match
against the normalized request value. -/
def matchNip (target : String) (m : MetaMap) : Bool :=
  !m.isEmpty &&
    (match dget m "nip" with
     | some v => !(v == "") && (v == target)
     | none => false)

/-- Target resolution of `notify` (`notify_api.py`, lines 82-99) for requests
that reach the registry (no truthy `chat_id`): the `username`/`first_name`/
`last_name`/broadcast cascade, then — when a truthy `nip` is supplied — the
target list is recomputed over the whole snapshot from the nip criterion
alone. -/
def resolveTargets (subs : SubsMap) (p : NotifyRequest) : List Nat :=
  let targets :=
    if truthy p.username then
      (subs.filter (fun e => matchUsername (p.username.getD "") e.2)).map Prod.fst
    else if truthy p.first_name then
      (subs.filter (fun e => matchFirst (p.first_name.getD "") e.2)).map Prod.fst
    else if truthy p.last_name then
      (subs.filter (fun e => matchLast (p.last_name.getD "") e.2)).map Prod.fst
    else
      subs.map Prod.fst
  if truthy p.nip then
    (subs.filter (fun e => matchNip (normalize_nip (p.nip.getD "")) e.2)).map Prod.fst
  else targets

/-- The full target selection of `notify`: a truthy `chat_id` short-circuits
to a direct send (lines 76-81), otherwise the registry snapshot is consulted. -/
def notifyTargets (subs : SubsMap) (p : NotifyRequest) : List Nat :=
  if truthyNat p.chat_id then [p.chat_id.getD 0] else resolveTargets subs p

/-- `_send_to` (`notify_api.py`, lines 52-63): one send through the Messenger,
any exception caught and turned into `False`.  `sendMessage` is the Messenger
oracle; `Except.error` models a raised exception. -/
def send_to (sendMessage : Nat → Except String Unit) (chat_id : Nat) : Bool :=
  match sendMessage chat_id with
  | Except.ok _ => true
  | Except.error _ => false

/-- The dispatch tail of `notify` (lines 106-112): gather the per-recipient
outcomes and count the successes (`sent = sum(1 for r in results if r)`). -/
def dispatchCount (sendMessage : Nat → Except String Unit)
    (targets : List Nat) : Nat :=
  (targets.map (fun cid => send_to sendMessage cid)).foldl
    (fun n b => if b then n + 1 else n) 0

/-! ## Association-list lemmas -/

theorem aget_aset_self {κ ν : Type} [BEq κ] [LawfulBEq κ]
    (m : List (κ × ν)) (k : κ) (v : ν) : aget (aset m k v) k = some v := by
  induction m with
  | nil => simp [aget, aset]
  | cons p rest ih =>
      obtain ⟨k1, v1⟩ := p
      by_cases h : (k1 == k) = true
      · simp [aset, h, aget]
      · simp [aset, h, aget, ih]

theorem aget_aset_ne {κ ν : Type} [BEq κ] [LawfulBEq κ]
    (m : List (κ × ν)) (k q : κ) (v : ν) (h : k ≠ q) :
    aget (aset m k v) q = aget m q := by
  induction m with
  | nil =>
      have hne : (k == q) = false := by simpa using h
      simp [aget, aset, hne]
  | cons p rest ih =>
      obtain ⟨k1, v1⟩ := p
      by_cases h1 : (k1 == k) = true
      · have hk1 : k1 = k := by simpa using h1
        subst hk1
        have hne : (k1 == q) = false := by simpa using h
        simp [aset, h1, aget, hne]
      · simp [aset, h1, aget, ih]

theorem aget_aset {κ ν : Type} [BEq κ] [LawfulBEq κ] [DecidableEq κ]
    (m : List (κ × ν)) (k q : κ) (v : ν) :
    aget (aset m k v) q = if k = q then some v else aget m q := by
  by_cases h : k = q
  · subst h
    simp [aget_aset_self]
  · simp [h, aget_aset_ne m k q v h]

theorem dget_dset_self (m : MetaMap) (k : String) (v : Option String) :
    dget (dset m k v) k = v := by
  simp [dget, dset, aget_aset_self]

theorem dget_dset_ne (m : MetaMap) (k q : String) (v : Option String)
    (h : k ≠ q) : dget (dset m k v) q = dget m q := by
  simp [dget, dset, aget_aset_ne m k q v h]

theorem aget_foldl_const {κ ν : Type} [BEq κ] [LawfulBEq κ] [DecidableEq κ]
    (ids : List κ) (r : ν) (acc : List (κ × ν)) (q : κ) :
    aget (ids.foldl (fun a c => aset a c r) acc) q =
      if q ∈ ids then some r else aget acc q := by
  induction ids generalizing acc with
  | nil => simp
  | cons c t ih =>
      simp only [List.foldl_cons, ih]
      by_cases hq : q ∈ t
      · simp [hq]
      · by_cases hc : q = c
        · subst hc
          simp [hq, aget_aset_self]
        · simp [hq, hc, aget_aset_ne _ _ _ _ (Ne.symm hc)]

theorem aget_map_snd {κ ν μ : Type} [BEq κ]
    (f : ν → μ) (l : List (κ × ν)) (q : κ) :
    aget (l.map (fun p => (p.1, f p.2))) q = (aget l q).map f := by
  induction l with
  | nil => simp [aget]
  | cons p rest ih =>
      obtain ⟨k1, v1⟩ := p
      by_cases h : (k1 == q) = true
      · simp [aget, h]
      · simp [aget, h, ih]

/-- Every record reachable in a fold of `aset`s of `f`-images is an
`f`-image, provided the accumulator only holds `f`-images. -/
theorem aget_foldl_aset_map {κ ν μ : Type} [BEq κ] [LawfulBEq κ] [DecidableEq κ]
    (f : ν → μ) (l : List (κ × ν)) (acc : List (κ × μ))
    (hacc : ∀ q m, aget acc q = some m → ∃ v, m = f v) :
    ∀ q m, aget (l.foldl (fun a p => aset a p.1 (f p.2)) acc) q = some m →
      ∃ v, m = f v := by
  induction l generalizing acc with
  | nil => exact hacc
  | cons p rest ih =>
      refine ih (aset acc p.1 (f p.2)) ?_
      intro q m hm
      rw [aget_aset] at hm
      by_cases h : p.1 = q
      · simp [h] at hm
        exact ⟨p.2, hm.symm⟩
      · simp [h] at hm
        exact hacc q m hm

theorem mem_map_fst_filter {P : Nat × MetaMap → Bool} {subs : SubsMap} {cid : Nat} :
    cid ∈ (subs.filter P).map Prod.fst ↔
      ∃ m, (cid, m) ∈ subs ∧ P (cid, m) = true := by
  simp only [List.mem_map, List.mem_filter]
  constructor
  · rintro ⟨⟨a, m⟩, ⟨hmem, hP⟩, rfl⟩
    exact ⟨m, hmem, hP⟩
  · rintro ⟨m, hmem, hP⟩
    exact ⟨(cid, m), ⟨hmem, hP⟩, rfl⟩

/-! ## String-helper lemmas -/

theorem pyLower_empty : pyLower "" = "" := rfl

theorem eq_empty_of_pyLower_eq_empty {q : String} (h : pyLower q = "") : q = "" := by
  have hd : (pyLower q).data = [] := by rw [h]
  simp only [pyLower] at hd
  have : q.data = [] := by
    have := List.map_eq_nil_iff.mp hd
    exact this
  exact String.ext this

theorem ne_empty_of_pyLower_eq {u q : String} (hq : q ≠ "")
    (h : pyLower u = pyLower q) : u ≠ "" := by
  intro hu
  subst hu
  exact hq (eq_empty_of_pyLower_eq_empty h.symm)

theorem pyContains_empty_hay {q : String} (hq : q ≠ "") :
    pyContains (pyLower "") (pyLower q) = false := by
  have hd : (pyLower q).data ≠ [] := by
    intro h
    exact hq (eq_empty_of_pyLower_eq_empty (String.ext h))
  simp only [pyContains, pyLower_empty]
  show segIn (pyLower q).data "".data = false
  cases h : (pyLower q).data with
  | nil => exact absurd h hd
  | cons c t => simp [segIn, h, List.isEmpty]

/-! ## Fold lemmas for the dispatch count -/

theorem foldl_count_aux (l : List Bool) (n : Nat) :
    l.foldl (fun n b => if b then n + 1 else n) n =
      n + (l.filter (fun b => b)).length := by
  induction l generalizing n with
  | nil => simp
  | cons b t ih =>
      cases b
      · simpa using ih n
      · simp only [List.foldl_cons, List.filter_cons]
        simp only [ih]
        simp
        omega

theorem length_filter_map_bool (f : Nat → Bool) (l : List Nat) :
    ((l.map f).filter (fun b => b)).length = (l.filter f).length := by
  induction l with
  | nil => simp
  | cons a t ih =>
      cases h : f a <;> simp [h, ih]

/-! ## Characterization of the change-gated update blocks -/

theorem setIfChanged_false {m : MetaMap} {k : String} {v : Option String}
    {g : Bool} (h : (setIfChanged m k v g).2 = false) :
    (setIfChanged m k v g).1 = m := by
  unfold setIfChanged at h ⊢
  split_ifs at h ⊢
  rfl

theorem setIfChanged_changed {m : MetaMap} {k : String} {v : Option String}
    {g : Bool} (h : (setIfChanged m k v g).2 = true) :
    dget (setIfChanged m k v g).1 k ≠ dget m k := by
  unfold setIfChanged at h ⊢
  split_ifs at h ⊢ with hc
  simp only [Bool.and_eq_true, bne_iff_ne] at hc
  simp only [dget_dset_self]
  exact fun e => hc.2 e.symm

theorem setIfChanged_dget_ne {m : MetaMap} {v : Option String} {g : Bool}
    {k q : String} (hne : k ≠ q) :
    dget (setIfChanged m k v g).1 q = dget m q := by
  unfold setIfChanged
  split_ifs
  · simp [dget_dset_ne _ _ _ _ hne]
  · rfl

theorem add_update_false {meta : MetaMap} {fn un ln : Option String}
    (h : (add_update meta fn un ln).2 = false) :
    (add_update meta fn un ln).1 = meta := by
  unfold add_update at h ⊢
  simp only []
  simp only [Bool.or_eq_false_iff] at h
  obtain ⟨⟨h1, h2⟩, h3⟩ := h
  rw [setIfChanged_false h3, setIfChanged_false h2, setIfChanged_false h1]

theorem add_update_sub_upd (meta : MetaMap) (fn un ln : Option String) :
    dget (add_update meta fn un ln).1 "subscribed_at" = dget meta "subscribed_at" ∧
    dget (add_update meta fn un ln).1 "updated_at" = dget meta "updated_at" := by
  unfold add_update
  simp only []
  constructor <;>
    rw [setIfChanged_dget_ne (by decide), setIfChanged_dget_ne (by decide),
      setIfChanged_dget_ne (by decide)]

theorem add_update_changed {meta : MetaMap} {fn un ln : Option String}
    (h : (add_update meta fn un ln).2 = true) :
    ¬(dget meta "first_name" = dget (add_update meta fn un ln).1 "first_name" ∧
      dget meta "last_name" = dget (add_update meta fn un ln).1 "last_name" ∧
      dget meta "username" = dget (add_update meta fn un ln).1 "username") := by
  unfold add_update at h ⊢
  simp only []
  rintro ⟨e1, e2, e3⟩
  simp only [Bool.or_eq_true] at h
  rcases h with (h1 | h2) | h3
  · rw [setIfChanged_dget_ne (by decide), setIfChanged_dget_ne (by decide)] at e1
    exact setIfChanged_changed h1 e1.symm
  · rw [setIfChanged_dget_ne (by decide)] at e2
    have hpres : dget (setIfChanged meta "first_name" fn (truthy fn)).1 "last_name"
        = dget meta "last_name" := setIfChanged_dget_ne (by decide)
    rw [← hpres] at e2
    exact setIfChanged_changed h2 e2.symm
  · have hp1 : dget (setIfChanged meta "first_name" fn (truthy fn)).1 "username"
        = dget meta "username" := setIfChanged_dget_ne (by decide)
    have hp2 : dget (setIfChanged (setIfChanged meta "first_name" fn (truthy fn)).1
        "last_name" ln (truthy ln)).1 "username"
        = dget (setIfChanged meta "first_name" fn (truthy fn)).1 "username" :=
      setIfChanged_dget_ne (by decide)
    rw [← hp1, ← hp2] at e3
    exact setIfChanged_changed h3 e3.symm

theorem dbSetFirst_false {row : Row} {v : Option String}
    (h : (dbSetFirst row v).2 = false) : (dbSetFirst row v).1 = row := by
  unfold dbSetFirst at h ⊢
  split_ifs at h ⊢
  rfl

theorem dbSetFirst_changed {row : Row} {v : Option String}
    (h : (dbSetFirst row v).2 = true) :
    (dbSetFirst row v).1.first_name ≠ row.first_name := by
  unfold dbSetFirst at h ⊢
  split_ifs at h ⊢ with hc
  simp only [Bool.and_eq_true, bne_iff_ne] at hc
  exact fun e => hc.2 e.symm

theorem dbSetFirst_pres (row : Row) (v : Option String) :
    (dbSetFirst row v).1.last_name = row.last_name ∧
    (dbSetFirst row v).1.username = row.username ∧
    (dbSetFirst row v).1.nip = row.nip ∧
    (dbSetFirst row v).1.subscribed_at = row.subscribed_at ∧
    (dbSetFirst row v).1.updated_at = row.updated_at := by
  unfold dbSetFirst
  split_ifs <;> simp

theorem dbSetLast_false {row : Row} {v : Option String}
    (h : (dbSetLast row v).2 = false) : (dbSetLast row v).1 = row := by
  unfold dbSetLast at h ⊢
  split_ifs at h ⊢
  rfl

theorem dbSetLast_changed {row : Row} {v : Option String}
    (h : (dbSetLast row v).2 = true) :
    (dbSetLast row v).1.last_name ≠ row.last_name := by
  unfold dbSetLast at h ⊢
  split_ifs at h ⊢ with hc
  simp only [Bool.and_eq_true, bne_iff_ne] at hc
  exact fun e => hc.2 e.symm

theorem dbSetLast_pres (row : Row) (v : Option String) :
    (dbSetLast row v).1.first_name = row.first_name ∧
    (dbSetLast row v).1.username = row.username ∧
    (dbSetLast row v).1.nip = row.nip ∧
    (dbSetLast row v).1.subscribed_at = row.subscribed_at ∧
    (dbSetLast row v).1.updated_at = row.updated_at := by
  unfold dbSetLast
  split_ifs <;> simp

theorem dbSetUsername_false {row : Row} {v : Option String}
    (h : (dbSetUsername row v).2 = false) : (dbSetUsername row v).1 = row := by
  unfold dbSetUsername at h ⊢
  split_ifs at h ⊢
  rfl

theorem dbSetUsername_changed {row : Row} {v : Option String}
    (h : (dbSetUsername row v).2 = true) :
    (dbSetUsername row v).1.username ≠ row.username := by
  unfold dbSetUsername at h ⊢
  split_ifs at h ⊢ with hc
  simp only [Bool.and_eq_true, bne_iff_ne] at hc
  exact fun e => hc.2 e.symm

theorem dbSetUsername_pres (row : Row) (v : Option String) :
    (dbSetUsername row v).1.first_name = row.first_name ∧
    (dbSetUsername row v).1.last_name = row.last_name ∧
    (dbSetUsername row v).1.nip = row.nip ∧
    (dbSetUsername row v).1.subscribed_at = row.subscribed_at ∧
    (dbSetUsername row v).1.updated_at = row.updated_at := by
  unfold dbSetUsername
  split_ifs <;> simp

theorem dbSetNip_false {row : Row} {nip : Option String}
    (h : (dbSetNip row nip).2 = false) : (dbSetNip row nip).1 = row := by
  unfold dbSetNip at h ⊢
  rcases nip with _ | s
  · rfl
  · simp only [] at h ⊢
    split_ifs at h ⊢
    rfl

theorem dbSetNip_changed {row : Row} {nip : Option String}
    (h : (dbSetNip row nip).2 = true) :
    (dbSetNip row nip).1.nip ≠ row.nip := by
  unfold dbSetNip at h ⊢
  rcases nip with _ | s
  · simp at h
  · simp only [] at h ⊢
    split_ifs at h ⊢ with hc
    simp only [bne_iff_ne] at hc
    exact fun e => hc e.symm

theorem dbSetNip_pres (row : Row) (nip : Option String) :
    (dbSetNip row nip).1.first_name = row.first_name ∧
    (dbSetNip row nip).1.last_name = row.last_name ∧
    (dbSetNip row nip).1.username = row.username ∧
    (dbSetNip row nip).1.subscribed_at = row.subscribed_at ∧
    (dbSetNip row nip).1.updated_at = row.updated_at := by
  unfold dbSetNip
  rcases nip with _ | s
  · simp
  · simp only []
    split_ifs <;> simp

theorem dbSetNip_val (row : Row) (s : String) :
    (dbSetNip row (some s)).1.nip = nipCap s := by
  unfold dbSetNip
  simp only []
  split_ifs with hc
  · rfl
  · simp only [bne_iff_ne, not_not] at hc
    simpa using hc

theorem db_row_update_false {row : Row} {fn ln un nip : Option String}
    (h : (db_row_update row fn ln un nip).2 = false) :
    (db_row_update row fn ln un nip).1 = row := by
  unfold db_row_update at h ⊢
  simp only []
  simp only [Bool.or_eq_false_iff] at h
  obtain ⟨⟨⟨h1, h2⟩, h3⟩, h4⟩ := h
  rw [dbSetNip_false h4, dbSetUsername_false h3, dbSetLast_false h2,
    dbSetFirst_false h1]

theorem db_row_update_sub_upd (row : Row) (fn ln un nip : Option String) :
    (db_row_update row fn ln un nip).1.subscribed_at = row.subscribed_at ∧
    (db_row_update row fn ln un nip).1.updated_at = row.updated_at := by
  unfold db_row_update
  simp only []
  constructor
  · rw [(dbSetNip_pres _ _).2.2.2.1, (dbSetUsername_pres _ _).2.2.2.1,
      (dbSetLast_pres _ _).2.2.2.1, (dbSetFirst_pres _ _).2.2.2.1]
  · rw [(dbSetNip_pres _ _).2.2.2.2, (dbSetUsername_pres _ _).2.2.2.2,
      (dbSetLast_pres _ _).2.2.2.2, (dbSetFirst_pres _ _).2.2.2.2]

theorem db_row_update_changed {row : Row} {fn ln un nip : Option String}
    (h : (db_row_update row fn ln un nip).2 = true) :
    ¬(row.first_name = (db_row_update row fn ln un nip).1.first_name ∧
      row.last_name = (db_row_update row fn ln un nip).1.last_name ∧
      row.username = (db_row_update row fn ln un nip).1.username ∧
      row.nip = (db_row_update row fn ln un nip).1.nip) := by
  unfold db_row_update at h ⊢
  simp only []
  rintro ⟨e1, e2, e3, e4⟩
  simp only [Bool.or_eq_true] at h
  rcases h with ((h1 | h2) | h3) | h4
  · rw [(dbSetNip_pres _ _).1, (dbSetUsername_pres _ _).1,
      (dbSetLast_pres _ _).1] at e1
    exact dbSetFirst_changed h1 e1.symm
  · rw [(dbSetNip_pres _ _).2.1, (dbSetUsername_pres _ _).2.1] at e2
    have hpres := (dbSetFirst_pres row fn).1
    rw [← hpres] at e2
    exact dbSetLast_changed h2 e2.symm
  · rw [(dbSetNip_pres _ _).2.2.1] at e3
    have hpA := (dbSetFirst_pres row fn).2.1
    have hpB := (dbSetLast_pres (dbSetFirst row fn).1 ln).2.1
    rw [← hpA, ← hpB] at e3
    exact dbSetUsername_changed h3 e3.symm
  · have hpA := (dbSetFirst_pres row fn).2.2.1
    have hpB := (dbSetLast_pres (dbSetFirst row fn).1 ln).2.2.1
    have hpC := (dbSetUsername_pres (dbSetLast (dbSetFirst row fn).1 ln).1 un).2.2.1
    rw [← hpA, ← hpB, ← hpC] at e4
    exact dbSetNip_changed h4 e4.symm

/-! ## Branch equations for the upsert operations -/

theorem add_core_create_eq {subs : SubsMap} {cid : Nat} (now : String)
    (fn un ln : Option String) (h : aget subs cid = none) :
    add_subscriber_core subs now cid fn un ln =
      (aset subs cid
        [("first_name", fn), ("last_name", ln), ("username", un),
         ("subscribed_at", some now)], true) := by
  unfold add_subscriber_core
  rw [h]

theorem add_core_existing_eq_true {subs : SubsMap} {cid : Nat} {meta : MetaMap}
    (now : String) {fn un ln : Option String} (h : aget subs cid = some meta)
    (hu : (add_update meta fn un ln).2 = true) :
    add_subscriber_core subs now cid fn un ln =
      (aset subs cid (dset (add_update meta fn un ln).1 "updated_at" (some now)),
        true) := by
  unfold add_subscriber_core
  rw [h]
  simp only []
  rw [if_pos hu]

theorem add_core_existing_eq_false {subs : SubsMap} {cid : Nat} {meta : MetaMap}
    (now : String) {fn un ln : Option String} (h : aget subs cid = some meta)
    (hu : (add_update meta fn un ln).2 = false) :
    add_subscriber_core subs now cid fn un ln = (subs, false) := by
  unfold add_subscriber_core
  rw [h]
  simp only []
  rw [if_neg (by simp [hu])]

theorem upsert_create_eq (parse : String → Option String) {db : DB} {cid : Nat}
    (now : String) (fn ln un nip sat : Option String) (h : aget db cid = none) :
    upsert_subscriber parse db now cid fn ln un nip sat =
      (aset db cid
        { first_name := fn, last_name := ln, username := un,
          nip := (match nip with | some s => nipCap s | none => none),
          subscribed_at :=
            (if truthy sat then parse (sat.getD "") else some now),
          updated_at := some now }, true) := by
  unfold upsert_subscriber
  rw [h]

theorem upsert_existing_eq_true (parse : String → Option String) {db : DB}
    {cid : Nat} {row : Row} (now : String) {fn ln un nip : Option String}
    (sat : Option String) (h : aget db cid = some row)
    (hu : (db_row_update row fn ln un nip).2 = true) :
    upsert_subscriber parse db now cid fn ln un nip sat =
      (aset db cid { (db_row_update row fn ln un nip).1 with
        updated_at := some now }, true) := by
  unfold upsert_subscriber
  rw [h]
  simp only []
  rw [if_pos hu]

theorem upsert_existing_eq_false (parse : String → Option String) {db : DB}
    {cid : Nat} {row : Row} (now : String) {fn ln un nip : Option String}
    (sat : Option String) (h : aget db cid = some row)
    (hu : (db_row_update row fn ln un nip).2 = false) :
    upsert_subscriber parse db now cid fn ln un nip sat = (db, false) := by
  unfold upsert_subscriber
  rw [h]
  simp only []
  rw [if_neg (by simp [hu])]

theorem db_row_update_nip (row : Row) (fn ln un : Option String) (s : String) :
    (db_row_update row fn ln un (some s)).1.nip = nipCap s := by
  unfold db_row_update
  simp only []
  exact dbSetNip_val _ s

/-! ## Facts about the PUT record builder -/

theorem update_core_nip (subs : SubsMap) (now : String) (cid : Nat)
    (fn ln un : Option String) (s : String) :
    dget (update_subscriber_core subs now cid fn ln un (some s)).2 "nip"
      = some (normalize_nip s) := by
  unfold update_subscriber_core
  simp only []
  rcases fn with _ | f <;> rcases ln with _ | l <;> rcases un with _ | u <;>
    simp [dget_dset_ne, dget_dset_self]

theorem update_core_subscribed (subs : SubsMap) (now : String) (cid : Nat)
    (fn ln un nip : Option String) :
    dget (update_subscriber_core subs now cid fn ln un nip).2 "subscribed_at"
      = dget ((aget subs cid).getD []) "subscribed_at" := by
  unfold update_subscriber_core
  simp only []
  rcases fn with _ | f <;> rcases ln with _ | l <;> rcases un with _ | u <;>
    rcases nip with _ | n <;> simp [dget_dset_ne]

theorem update_core_aset (subs : SubsMap) (now : String) (cid : Nat)
    (fn ln un nip : Option String) :
    (update_subscriber_core subs now cid fn ln un nip).1
      = aset subs cid (update_subscriber_core subs now cid fn ln un nip).2 := by
  unfold update_subscriber_core
  simp only []

/-! ## Facts about the bulk relational save on a single entry -/

theorem db_save_single_existing (parse : String → Option String) {db : DB}
    {cid : Nat} {row : Row} (now : String) (meta : MetaMap)
    (h : aget db cid = some row) :
    ∃ row2, aget (db_save_subscribers_map parse db now [(cid, meta)]) cid
        = some row2 ∧
      row2.subscribed_at = row.subscribed_at ∧
      row2.nip = (match dget meta "nip" with
                  | some s => nipCap s
                  | none => none) := by
  unfold db_save_subscribers_map
  simp only [List.foldl_cons, List.foldl_nil]
  rw [h]
  exact ⟨_, aget_aset_self _ _ _, rfl, rfl⟩

theorem db_save_single_new (parse : String → Option String) {db : DB}
    {cid : Nat} (now : String) (meta : MetaMap) (h : aget db cid = none) :
    ∃ row2, aget (db_save_subscribers_map parse db now [(cid, meta)]) cid
        = some row2 ∧
      row2.subscribed_at = some ((match dget meta "subscribed_at" with
        | some s => parse s
        | none => none).getD now) ∧
      row2.nip = (match dget meta "nip" with
                  | some s => nipCap s
                  | none => none) := by
  unfold db_save_subscribers_map
  simp only [List.foldl_cons, List.foldl_nil]
  rw [h]
  exact ⟨_, aget_aset_self _ _ _, rfl, rfl⟩

/-! ## Semantic characterization of the resolver criteria -/

theorem isEmpty_false_of_dget {m : MetaMap} {k : String} {u : String}
    (h : dget m k = some u) : m.isEmpty = false := by
  cases m with
  | nil => simp [dget, aget] at h
  | cons a t => rfl

theorem matchUsername_iff {q : String} (m : MetaMap) (hq : q ≠ "") :
    matchUsername q m = true ↔
      ∃ u, dget m "username" = some u ∧ pyLower u = pyLower q := by
  unfold matchUsername
  cases hd : dget m "username" with
  | none =>
      simp
  | some u =>
      have hne : m.isEmpty = false := isEmpty_false_of_dget hd
      simp only [hne, Bool.not_false, Bool.true_and]
      constructor
      · intro hb
        simp only [Bool.and_eq_true, beq_iff_eq] at hb
        exact ⟨u, rfl, hb.2⟩
      · rintro ⟨u', hu', hlow⟩
        have huu : u' = u := ((Option.some.injEq _ _).mp hu').symm
        subst huu
        have hune : (u' == "") = false := by
          have := ne_empty_of_pyLower_eq hq hlow
          simpa using this
        simp [hune, hlow]

theorem matchFirst_iff {q : String} (m : MetaMap) (hq : q ≠ "") :
    matchFirst q m = true ↔
      ∃ u, dget m "first_name" = some u ∧
        pyContains (pyLower u) (pyLower q) = true := by
  unfold matchFirst
  cases hd : dget m "first_name" with
  | none =>
      simp
  | some u =>
      have hne : m.isEmpty = false := isEmpty_false_of_dget hd
      simp only [hne, Bool.not_false, Bool.true_and]
      by_cases hu : u = ""
      · subst hu
        simp only [beq_self_eq_true, Bool.not_true, Bool.false_and]
        constructor
        · intro hb
          exact absurd hb (by simp)
        · rintro ⟨u', hu', hcon⟩
          have huu : u' = "" := ((Option.some.injEq _ _).mp hu').symm
          subst huu
          rw [pyContains_empty_hay hq] at hcon
          exact hcon
      · have hune : (u == "") = false := by simpa using hu
        simp only [hune, Bool.not_false, Bool.true_and]
        constructor
        · intro hb
          exact ⟨u, rfl, hb⟩
        · rintro ⟨u', hu', hcon⟩
          have huu : u' = u := ((Option.some.injEq _ _).mp hu').symm
          subst huu
          exact hcon

theorem matchLast_iff {q : String} (m : MetaMap) (hq : q ≠ "") :
    matchLast q m = true ↔
      ∃ u, dget m "last_name" = some u ∧
        pyContains (pyLower u) (pyLower q) = true := by
  unfold matchLast
  cases hd : dget m "last_name" with
  | none =>
      simp
  | some u =>
      have hne : m.isEmpty = false := isEmpty_false_of_dget hd
      simp only [hne, Bool.not_false, Bool.true_and]
      by_cases hu : u = ""
      · subst hu
        simp only [beq_self_eq_true, Bool.not_true, Bool.false_and]
        constructor
        · intro hb
          exact absurd hb (by simp)
        · rintro ⟨u', hu', hcon⟩
          have huu : u' = "" := ((Option.some.injEq _ _).mp hu').symm
          subst huu
          rw [pyContains_empty_hay hq] at hcon
          exact hcon
      · have hune : (u == "") = false := by simpa using hu
        simp only [hune, Bool.not_false, Bool.true_and]
        constructor
        · intro hb
          exact ⟨u, rfl, hb⟩
        · rintro ⟨u', hu', hcon⟩
          have huu : u' = u := ((Option.some.injEq _ _).mp hu').symm
          subst huu
          exact hcon

theorem truthy_some_of_ne {q : String} (hq : q ≠ "") :
    truthy (some q) = true := by
  simp [truthy]
  exact hq

/-! ## Concrete fixtures used by witnesses and counterexamples -/

/-- A file system holding an empty subscribers store. -/
def fsEmptyStore : FS := ⟨"subscribers.json", FileData.jdict [], []⟩

/-- A file system whose subscribers file fails to parse. -/
def fsCorrupt : FS := ⟨"subscribers.json", FileData.corrupt, []⟩

/-- A file system holding the legacy bare list `[1, 2]`. -/
def fsLegacy12 : FS := ⟨"subscribers.json", FileData.legacy [1, 2], []⟩

/-- A 25-character identifier, as in the spec's truncation property. -/
def nip25 : String := "XXXXXXXXXXXXXXXXXXXXXXXXX"

/-- Two subscribers with usernames and nip values. -/
def eveSubs : SubsMap :=
  [(1, [("username", some "eve"), ("nip", some "A")]),
   (2, [("username", some "mallory"), ("nip", some "B")])]

/-- A notification request filtering on `username="eve"` and `nip="B"`. -/
def reqUserNip : NotifyRequest := ⟨"m", none, some "eve", none, none, some "B"⟩

/-- The same request without the nip filter. -/
def reqUserOnly : NotifyRequest := ⟨"m", none, some "eve", none, none, none⟩

/-- A Messenger stub that fails for chat id 20 and succeeds elsewhere. -/
def demoSend : Nat → Except String Unit :=
  fun cid => if cid == 20 then Except.error "blocked" else Except.ok ()

/-! ## Claim theorems -/

/-- C5: when the backing file fails to parse, `_load_subscribers_map` renames
it to the timestamped backup `<path>.corrupt-<UTC timestamp>`, writes a fresh
empty store to the original path, and returns the empty mapping; the branch
is a total function of the file state, so it never raises to the caller. -/
theorem C5_corrupt_recovery (fs : FS) (now ts : String)
    (h : fs.main = FileData.corrupt) :
    load_subscribers_map fs now ts =
      ({ path := fs.path, main := FileData.jdict [],
         backups := fs.backups ++ [(fs.path ++ ".corrupt-" ++ ts, FileData.corrupt)] },
       []) := by
  unfold load_subscribers_map save_subscribers_map
  rw [h]
  rfl

/-- Witness for C5 at a concrete corrupt store. -/
theorem C5_corrupt_recovery_witness :
    load_subscribers_map fsCorrupt "NOW" "TS" =
      ({ path := fsCorrupt.path, main := FileData.jdict [],
         backups := fsCorrupt.backups ++
           [(fsCorrupt.path ++ ".corrupt-" ++ "TS", FileData.corrupt)] }, []) :=
  C5_corrupt_recovery fsCorrupt "NOW" "TS" rfl

/-- C7: the dispatch tail of `notify` counts exactly the recipients for which
the Messenger reported success; a failing send is caught by `_send_to`
(modelled by the total `send_to`) and only lowers the count, and with three
targets of which one fails the result is `sent = 2`. -/
theorem C7_dispatch_count_successes :
    (∀ (sendMessage : Nat → Except String Unit) (targets : List Nat),
      dispatchCount sendMessage targets =
        (targets.filter (fun cid => send_to sendMessage cid)).length) ∧
    dispatchCount demoSend [10, 20, 30] = 2 := by
  constructor
  · intro send targets
    unfold dispatchCount
    rw [foldl_count_aux, length_filter_map_bool]
    simp
  · rfl

/-- C4 counterexample: with `username="eve"` alone the target set is `{1}`,
but adding the `nip="B"` filter yields `{2}`, which is not a subset of `{1}`:
the nip filter does not narrow the earlier criterion's result. -/
theorem C4_counterexample :
    resolveTargets eveSubs reqUserOnly = [1] ∧
    resolveTargets eveSubs reqUserNip = [2] ∧
    ¬(resolveTargets eveSubs reqUserNip ⊆ resolveTargets eveSubs reqUserOnly) := by
  refine ⟨rfl, rfl, ?_⟩
  intro hsub
  have h2 : (2 : Nat) ∈ resolveTargets eveSubs reqUserNip := by decide
  have := hsub h2
  revert this
  decide

/-- C4 amended: when a truthy nip filter is present, the resolver recomputes
the target set over the whole snapshot from the nip criterion alone, ignoring
any username/first-name/last-name filter (so the result can contain chat ids
the earlier filter excluded). -/
theorem C4_nip_filter_replaces (subs : SubsMap) (p : NotifyRequest)
    (h : truthy p.nip = true) :
    resolveTargets subs p =
      resolveTargets subs ⟨p.message, p.chat_id, none, none, none, p.nip⟩ := by
  unfold resolveTargets
  simp only []
  rw [if_pos h, if_pos h]

/-- Witness for the amended C4 at the concrete two-subscriber snapshot. -/
theorem C4_nip_filter_replaces_witness :
    resolveTargets eveSubs reqUserNip =
      resolveTargets eveSubs
        ⟨reqUserNip.message, reqUserNip.chat_id, none, none, none, reqUserNip.nip⟩ :=
  C4_nip_filter_replaces eveSubs reqUserNip rfl

/-- C3: an identifier longer than 18 characters is stored as its exact
18-character prefix, uniformly by the relational upsert (fresh and existing
row), the relational bulk save, and the HTTP PUT record builder (through the
spec-modelled `_normalize_nip`); every operation involved is a total
function, so the truncation never raises. -/
theorem C3_nip_truncation (s : String) (h : 18 < s.data.length) :
    (strTake 18 s).data.length = 18 ∧
    (strTake 18 s).data ++ s.data.drop 18 = s.data ∧
    nipCap s = some (strTake 18 s) ∧
    (∀ parse db now cid fn ln un sat,
      ∃ row, aget (upsert_subscriber parse db now cid fn ln un (some s) sat).1 cid
          = some row ∧ row.nip = some (strTake 18 s)) ∧
    (∀ subs now cid fn ln un,
      dget (update_subscriber_core subs now cid fn ln un (some s)).2 "nip"
        = some (strTake 18 s)) ∧
    (∀ parse db now cid meta, dget meta "nip" = some s →
      ∃ row, aget (db_save_subscribers_map parse db now [(cid, meta)]) cid
          = some row ∧ row.nip = some (strTake 18 s)) := by
  have hsne : (s == "") = false := by
    have : s ≠ "" := by
      intro he
      subst he
      simp at h
    simpa using this
  have hcap : nipCap s = some (strTake 18 s) := by
    unfold nipCap
    have hcond : (!(s == "") && decide (18 < s.data.length)) = true := by
      simp only [hsne, Bool.not_false, Bool.true_and, decide_eq_true_eq]
      exact h
    rw [if_pos hcond]
  refine ⟨?_, ?_, hcap, ?_, ?_, ?_⟩
  · simp only [strTake]
    rw [List.length_take]
    omega
  · exact List.take_append_drop 18 s.data
  · intro parse db now cid fn ln un sat
    cases hrow : aget db cid with
    | none =>
        rw [upsert_create_eq parse now fn ln un (some s) sat hrow]
        refine ⟨_, aget_aset_self _ _ _, ?_⟩
        simp only []
        exact hcap
    | some row =>
        cases hu : (db_row_update row fn ln un (some s)).2 with
        | true =>
            rw [upsert_existing_eq_true parse now sat hrow hu]
            refine ⟨_, aget_aset_self _ _ _, ?_⟩
            show (db_row_update row fn ln un (some s)).1.nip = some (strTake 18 s)
            rw [db_row_update_nip, hcap]
        | false =>
            rw [upsert_existing_eq_false parse now sat hrow hu]
            refine ⟨row, hrow, ?_⟩
            have h1 := db_row_update_false hu
            have h2 := db_row_update_nip row fn ln un s
            rw [h1] at h2
            rw [h2, hcap]
  · intro subs now cid fn ln un
    rw [update_core_nip]
    show some (normalize_nip s) = some (strTake 18 s)
    rfl
  · intro parse db now cid meta hmeta
    cases hrow : aget db cid with
    | none =>
        obtain ⟨row2, hr, _, hnip⟩ := db_save_single_new parse now meta hrow
        refine ⟨row2, hr, ?_⟩
        rw [hnip, hmeta]
        simp only []
        exact hcap
    | some row =>
        obtain ⟨row2, hr, _, hnip⟩ := db_save_single_existing parse now meta hrow
        refine ⟨row2, hr, ?_⟩
        rw [hnip, hmeta]
        simp only []
        exact hcap

/-- Witness for C3 at the 25-character identifier from the spec's property. -/
theorem C3_nip_truncation_witness :
    (strTake 18 nip25).data.length = 18 ∧
    dget (update_subscriber_core [] "T1" 3333 none none none (some nip25)).2 "nip"
      = some (strTake 18 nip25) :=
  ⟨(C3_nip_truncation nip25 (by decide)).1,
   (C3_nip_truncation nip25 (by decide)).2.2.2.2.1 [] "T1" 3333 none none none⟩

/-- C1 counterexample: a fresh record created by the relational
`upsert_subscriber` has `updated_at` stamped with the creation time (`db.py`
line 151), so an upsert on this backend does set `updated_at` on a record
that did not exist before the call, contradicting the claim that a freshly
created record has no `updated_at` set by the upsert itself. -/
theorem C1_counterexample :
    (aget (upsert_subscriber (fun _ => none) [] "T0" 1 (some "A") none none none
        none).1 1).map Row.updated_at = some (some "T0") ∧
    (some "T0" : Option String) ≠ none := ⟨rfl, by decide⟩

/-- C1 amended: on the file backend, `updated_at` is set exactly when the
record existed and at least one supplied field actually changed value, a
no-change upsert performs no persistence write, and a freshly created record
carries no `updated_at`; on the relational backend updates are change-gated
the same way (including the identifier), but creation also stamps
`updated_at` with the creation time. -/
theorem C1_updated_at_amended :
    (∀ subs now cid fn un ln, aget subs cid = none →
      (add_subscriber_core subs now cid fn un ln).2 = true ∧
      ∃ m, aget (add_subscriber_core subs now cid fn un ln).1 cid = some m ∧
        dget m "updated_at" = none) ∧
    (∀ subs now cid fn un ln meta, aget subs cid = some meta →
      ∃ m2, aget (add_subscriber_core subs now cid fn un ln).1 cid = some m2 ∧
        ((add_subscriber_core subs now cid fn un ln).2 = true ↔
          ¬(dget meta "first_name" = dget m2 "first_name" ∧
            dget meta "last_name" = dget m2 "last_name" ∧
            dget meta "username" = dget m2 "username")) ∧
        ((add_subscriber_core subs now cid fn un ln).2 = true →
          dget m2 "updated_at" = some now) ∧
        ((add_subscriber_core subs now cid fn un ln).2 = false →
          (add_subscriber_core subs now cid fn un ln).1 = subs ∧
          dget m2 "updated_at" = dget meta "updated_at")) ∧
    (∀ fs nowLoad ts now cid fn un ln,
      (add_subscriber_core (load_subscribers_map fs nowLoad ts).2 now cid fn un
        ln).2 = false →
      add_subscriber fs nowLoad ts now cid fn un ln
        = (load_subscribers_map fs nowLoad ts).1) ∧
    (∀ parse db now cid fn ln un nip sat row, aget db cid = some row →
      ∃ row2, aget (upsert_subscriber parse db now cid fn ln un nip sat).1 cid
          = some row2 ∧
        ((upsert_subscriber parse db now cid fn ln un nip sat).2 = true ↔
          ¬(row.first_name = row2.first_name ∧ row.last_name = row2.last_name ∧
            row.username = row2.username ∧ row.nip = row2.nip)) ∧
        ((upsert_subscriber parse db now cid fn ln un nip sat).2 = true →
          row2.updated_at = some now) ∧
        ((upsert_subscriber parse db now cid fn ln un nip sat).2 = false →
          (upsert_subscriber parse db now cid fn ln un nip sat).1 = db ∧
          row2.updated_at = row.updated_at)) ∧
    (∀ parse db now cid fn ln un nip sat, aget db cid = none →
      ∃ row, aget (upsert_subscriber parse db now cid fn ln un nip sat).1 cid
          = some row ∧ row.updated_at = some now) := by
  refine ⟨?_, ?_, ?_, ?_, ?_⟩
  · intro subs now cid fn un ln h
    rw [add_core_create_eq now fn un ln h]
    exact ⟨rfl, _, aget_aset_self _ _ _, rfl⟩
  · intro subs now cid fn un ln meta h
    cases hu : (add_update meta fn un ln).2 with
    | false =>
        have hres := add_core_existing_eq_false now h hu
        have hm := add_update_false hu
        refine ⟨meta, ?_, ?_, ?_, ?_⟩
        · rw [hres]
          exact h
        · rw [hres]
          simp
        · rw [hres]
          simp
        · rw [hres]
          exact fun _ => ⟨rfl, rfl⟩
    | true =>
        have hres := add_core_existing_eq_true now h hu
        refine ⟨dset (add_update meta fn un ln).1 "updated_at" (some now),
          ?_, ?_, ?_, ?_⟩
        · rw [hres]
          exact aget_aset_self _ _ _
        · rw [hres]
          constructor
          · intro _
            rintro ⟨e1, e2, e3⟩
            rw [dget_dset_ne _ _ _ _ (by decide)] at e1 e2 e3
            exact add_update_changed hu ⟨e1, e2, e3⟩
          · intro _
            rfl
        · intro _
          exact dget_dset_self _ _ _
        · rw [hres]
          simp
  · intro fs nowLoad ts now cid fn un ln h
    unfold add_subscriber
    simp only []
    rw [if_neg (by simp [h])]
  · intro parse db now cid fn ln un nip sat row h
    cases hu : (db_row_update row fn ln un nip).2 with
    | false =>
        have hres := upsert_existing_eq_false parse now sat h hu
        have hm := db_row_update_false hu
        refine ⟨row, ?_, ?_, ?_, ?_⟩
        · rw [hres]
          exact h
        · rw [hres]
          simp
        · rw [hres]
          simp
        · rw [hres]
          exact fun _ => ⟨rfl, rfl⟩
    | true =>
        have hres := upsert_existing_eq_true parse now sat h hu
        refine ⟨{ (db_row_update row fn ln un nip).1 with updated_at := some now },
          ?_, ?_, ?_, ?_⟩
        · rw [hres]
          exact aget_aset_self _ _ _
        · rw [hres]
          constructor
          · intro _
            rintro ⟨e1, e2, e3, e4⟩
            exact db_row_update_changed hu ⟨e1, e2, e3, e4⟩
          · intro _
            rfl
        · intro _
          rfl
        · rw [hres]
          simp
  · intro parse db now cid fn ln un nip sat h
    rw [upsert_create_eq parse now fn ln un nip sat h]
    exact ⟨_, aget_aset_self _ _ _, rfl⟩

/-- Witness for the amended C1: a creation on the file backend writes and
leaves `updated_at` null. -/
theorem C1_updated_at_amended_witness :
    (add_subscriber_core [] "T7" 7 (some "A") none none).2 = true ∧
    ∃ m, aget (add_subscriber_core [] "T7" 7 (some "A") none none).1 7
        = some m ∧ dget m "updated_at" = none :=
  C1_updated_at_amended.1 [] "T7" 7 (some "A") none none rfl

/-- C2 counterexample: `PUT /subscribers/22222` creating an unknown id never
writes `subscribed_at` — the record echoed to the caller and the record
persisted to the file both carry a null `subscribed_at`, contradicting the
claim that every creating operation sets it. -/
theorem C2_counterexample :
    dget (update_subscriber fsEmptyStore "TL" "TS" "T1" 22222 (some "Zoe") none
      (some "zoe") none).2 "subscribed_at" = none ∧
    (update_subscriber fsEmptyStore "TL" "TS" "T1" 22222 (some "Zoe") none
      (some "zoe") none).1.main
      = FileData.jdict [(22222,
          [("first_name", some "Zoe"), ("last_name", none),
           ("username", some "zoe"), ("subscribed_at", none),
           ("updated_at", some "T1")])] := ⟨rfl, rfl⟩

/-- C2 amended: `subscribed_at` is stamped at creation by the bot-side upsert
and by the relational upsert, and no update path (change-gated upsert on an
existing record, PUT on an existing record, sync, relational upsert or bulk
save on an existing row) modifies it; however a record created through the
HTTP PUT endpoint on an unknown id gets no `subscribed_at` at all. -/
theorem C2_subscribed_at_amended :
    (∀ subs now cid fn un ln, aget subs cid = none →
      ∃ m, aget (add_subscriber_core subs now cid fn un ln).1 cid = some m ∧
        dget m "subscribed_at" = some now) ∧
    (∀ subs now cid fn un ln meta, aget subs cid = some meta →
      ∃ m2, aget (add_subscriber_core subs now cid fn un ln).1 cid = some m2 ∧
        dget m2 "subscribed_at" = dget meta "subscribed_at") ∧
    (∀ subs now cid fn ln un nip,
      dget (update_subscriber_core subs now cid fn ln un nip).2 "subscribed_at"
        = dget ((aget subs cid).getD []) "subscribed_at") ∧
    (∀ fs nowLoad ts now chat cid m,
      (sync_subscriber fs nowLoad ts now (some chat) cid).2 = some m →
      dget m "subscribed_at"
        = dget ((aget (load_subscribers_map fs nowLoad ts).2 cid).getD [])
            "subscribed_at") ∧
    (∀ parse db now cid fn ln un nip, aget db cid = none →
      ∃ row, aget (upsert_subscriber parse db now cid fn ln un nip none).1 cid
          = some row ∧ row.subscribed_at = some now) ∧
    (∀ parse db now cid fn ln un nip sat row, aget db cid = some row →
      ∃ row2, aget (upsert_subscriber parse db now cid fn ln un nip sat).1 cid
          = some row2 ∧ row2.subscribed_at = row.subscribed_at) ∧
    (∀ parse db now cid meta row, aget db cid = some row →
      ∃ row2, aget (db_save_subscribers_map parse db now [(cid, meta)]) cid
          = some row2 ∧ row2.subscribed_at = row.subscribed_at) := by
  refine ⟨?_, ?_, ?_, ?_, ?_, ?_, ?_⟩
  · intro subs now cid fn un ln h
    rw [add_core_create_eq now fn un ln h]
    exact ⟨_, aget_aset_self _ _ _, rfl⟩
  · intro subs now cid fn un ln meta h
    cases hu : (add_update meta fn un ln).2 with
    | false =>
        rw [add_core_existing_eq_false now h hu]
        exact ⟨meta, h, rfl⟩
    | true =>
        rw [add_core_existing_eq_true now h hu]
        refine ⟨_, aget_aset_self _ _ _, ?_⟩
        rw [dget_dset_ne _ _ _ _ (by decide)]
        exact (add_update_sub_upd meta fn un ln).1
  · intro subs now cid fn ln un nip
    exact update_core_subscribed subs now cid fn ln un nip
  · intro fs nowLoad ts now chat cid m hm
    unfold sync_subscriber at hm
    simp only [Option.some.injEq] at hm
    subst hm
    rw [dget_dset_ne _ _ _ _ (by decide), dget_dset_ne _ _ _ _ (by decide),
      dget_dset_ne _ _ _ _ (by decide), dget_dset_ne _ _ _ _ (by decide)]
  · intro parse db now cid fn ln un nip h
    rw [upsert_create_eq parse now fn ln un nip none h]
    refine ⟨_, aget_aset_self _ _ _, ?_⟩
    show (if truthy none then parse ((none : Option String).getD "") else some now)
      = some now
    rfl
  · intro parse db now cid fn ln un nip sat row h
    cases hu : (db_row_update row fn ln un nip).2 with
    | false =>
        rw [upsert_existing_eq_false parse now sat h hu]
        exact ⟨row, h, rfl⟩
    | true =>
        rw [upsert_existing_eq_true parse now sat h hu]
        refine ⟨_, aget_aset_self _ _ _, ?_⟩
        show (db_row_update row fn ln un nip).1.subscribed_at = row.subscribed_at
        exact (db_row_update_sub_upd row fn ln un nip).1
  · intro parse db now cid meta row h
    obtain ⟨row2, hr, hsub, _⟩ := db_save_single_existing parse now meta h
    exact ⟨row2, hr, hsub⟩

/-- Witness for the amended C2: a file-backend creation stamps
`subscribed_at` with the creation time. -/
theorem C2_subscribed_at_amended_witness :
    ∃ m, aget (add_subscriber_core [] "T8" 8 (some "B") none none).1 8
        = some m ∧ dget m "subscribed_at" = some "T8" :=
  C2_subscribed_at_amended.1 [] "T8" 8 (some "B") none none rfl

/-- C6: loading a backing file that holds a bare JSON list of chat ids
returns one record per listed id whose optional fields (first name, last
name, username, identifier) are all null and whose `subscribed_at` is the
migration time, no record for any other id, and immediately persists the
converted full-mapping shape (normalized to the five-key record form) back
to the file. -/
theorem C6_legacy_migration (fs : FS) (now ts : String) (ids : List Nat)
    (h : fs.main = FileData.legacy ids) :
    (∀ cid, cid ∈ ids →
      ∃ m, aget (load_subscribers_map fs now ts).2 cid = some m ∧
        dget m "first_name" = none ∧ dget m "last_name" = none ∧
        dget m "username" = none ∧ dget m "nip" = none ∧
        dget m "subscribed_at" = some now ∧ dget m "updated_at" = none) ∧
    (∀ cid, cid ∉ ids → aget (load_subscribers_map fs now ts).2 cid = none) ∧
    (∃ entries, (load_subscribers_map fs now ts).1.main = FileData.jdict entries ∧
      (load_subscribers_map fs now ts).1.path = fs.path ∧
      ∀ cid, cid ∈ ids →
        ∃ m, aget entries cid = some m ∧
          dkeys m = ["first_name", "last_name", "username", "subscribed_at",
            "updated_at"] ∧
          dget m "first_name" = none ∧ dget m "last_name" = none ∧
          dget m "username" = none ∧ dget m "subscribed_at" = some now ∧
          dget m "updated_at" = none) := by
  have hload : load_subscribers_map fs now ts =
      (save_subscribers_map fs
        (ids.foldl (fun acc cid => aset acc cid (legacyRecord now)) []),
       ids.foldl (fun acc cid => aset acc cid (legacyRecord now)) []) := by
    unfold load_subscribers_map
    rw [h]
  refine ⟨?_, ?_, ?_⟩
  · intro cid hc
    rw [hload]
    show ∃ m, aget (ids.foldl (fun acc cid => aset acc cid (legacyRecord now)) [])
      cid = some m ∧ _
    rw [aget_foldl_const, if_pos hc]
    exact ⟨legacyRecord now, rfl, rfl, rfl, rfl, rfl, rfl, rfl⟩
  · intro cid hc
    rw [hload]
    show aget (ids.foldl (fun acc cid => aset acc cid (legacyRecord now)) [])
      cid = none
    rw [aget_foldl_const, if_neg hc]
    rfl
  · refine ⟨(ids.foldl (fun acc cid => aset acc cid (legacyRecord now)) []).map
      (fun p => (p.1, saveNorm p.2)), ?_, ?_, ?_⟩
    · rw [hload]
      rfl
    · rw [hload]
      rfl
    · intro cid hc
      rw [aget_map_snd, aget_foldl_const, if_pos hc]
      exact ⟨saveNorm (legacyRecord now), rfl, rfl, rfl, rfl, rfl, rfl, rfl⟩

/-- Witness for C6 at the spec's `[1, 2]` store. -/
theorem C6_legacy_migration_witness :
    ∃ m, aget (load_subscribers_map fsLegacy12 "NOW" "TS").2 1 = some m ∧
      dget m "first_name" = none ∧ dget m "last_name" = none ∧
      dget m "username" = none ∧ dget m "nip" = none ∧
      dget m "subscribed_at" = some "NOW" ∧ dget m "updated_at" = none :=
  (C6_legacy_migration fsLegacy12 "NOW" "TS" [1, 2] rfl).1 1 (by decide)

/-- C8: for requests that reach the resolver (no truthy chat id, no truthy
nip), a username filter selects exactly the chat ids whose stored username
equals the filter case-insensitively, a first-name (or last-name) filter
selects exactly those whose stored field contains the filter as a
case-insensitive substring, a request with no filters selects every chat id
in the snapshot, and a record missing the filtered field never matches
(there is no `u` with `dget m <field> = some u`). -/
theorem C8_resolver (subs : SubsMap) (p : NotifyRequest) :
    (∀ q cid, truthyNat p.chat_id = false → p.username = some q → q ≠ "" →
      truthy p.nip = false →
      (cid ∈ notifyTargets subs p ↔
        ∃ m u, (cid, m) ∈ subs ∧ dget m "username" = some u ∧
          pyLower u = pyLower q)) ∧
    (∀ q cid, truthyNat p.chat_id = false → truthy p.username = false →
      p.first_name = some q → q ≠ "" → truthy p.nip = false →
      (cid ∈ notifyTargets subs p ↔
        ∃ m u, (cid, m) ∈ subs ∧ dget m "first_name" = some u ∧
          pyContains (pyLower u) (pyLower q) = true)) ∧
    (∀ q cid, truthyNat p.chat_id = false → truthy p.username = false →
      truthy p.first_name = false → p.last_name = some q → q ≠ "" →
      truthy p.nip = false →
      (cid ∈ notifyTargets subs p ↔
        ∃ m u, (cid, m) ∈ subs ∧ dget m "last_name" = some u ∧
          pyContains (pyLower u) (pyLower q) = true)) ∧
    (truthyNat p.chat_id = false → truthy p.username = false →
      truthy p.first_name = false → truthy p.last_name = false →
      truthy p.nip = false →
      notifyTargets subs p = subs.map Prod.fst) := by
  refine ⟨?_, ?_, ?_, ?_⟩
  · intro q cid hchat hq hqe hnip
    unfold notifyTargets
    rw [if_neg (by simp [hchat])]
    unfold resolveTargets
    simp only []
    rw [if_neg (by simp [hnip])]
    have hu : truthy p.username = true := by
      rw [hq]
      exact truthy_some_of_ne hqe
    rw [if_pos hu, hq]
    simp only [Option.getD_some]
    rw [mem_map_fst_filter]
    constructor
    · rintro ⟨m, hm, hP⟩
      obtain ⟨u, hu', hl⟩ := (matchUsername_iff m hqe).mp hP
      exact ⟨m, u, hm, hu', hl⟩
    · rintro ⟨m, u, hm, hu', hl⟩
      exact ⟨m, hm, (matchUsername_iff m hqe).mpr ⟨u, hu', hl⟩⟩
  · intro q cid hchat husr hq hqe hnip
    unfold notifyTargets
    rw [if_neg (by simp [hchat])]
    unfold resolveTargets
    simp only []
    rw [if_neg (by simp [hnip]), if_neg (by simp [husr])]
    have hu : truthy p.first_name = true := by
      rw [hq]
      exact truthy_some_of_ne hqe
    rw [if_pos hu, hq]
    simp only [Option.getD_some]
    rw [mem_map_fst_filter]
    constructor
    · rintro ⟨m, hm, hP⟩
      obtain ⟨u, hu', hl⟩ := (matchFirst_iff m hqe).mp hP
      exact ⟨m, u, hm, hu', hl⟩
    · rintro ⟨m, u, hm, hu', hl⟩
      exact ⟨m, hm, (matchFirst_iff m hqe).mpr ⟨u, hu', hl⟩⟩
  · intro q cid hchat husr hfn hq hqe hnip
    unfold notifyTargets
    rw [if_neg (by simp [hchat])]
    unfold resolveTargets
    simp only []
    rw [if_neg (by simp [hnip]), if_neg (by simp [husr]),
      if_neg (by simp [hfn])]
    have hu : truthy p.last_name = true := by
      rw [hq]
      exact truthy_some_of_ne hqe
    rw [if_pos hu, hq]
    simp only [Option.getD_some]
    rw [mem_map_fst_filter]
    constructor
    · rintro ⟨m, hm, hP⟩
      obtain ⟨u, hu', hl⟩ := (matchLast_iff m hqe).mp hP
      exact ⟨m, u, hm, hu', hl⟩
    · rintro ⟨m, u, hm, hu', hl⟩
      exact ⟨m, hm, (matchLast_iff m hqe).mpr ⟨u, hu', hl⟩⟩
  · intro hchat husr hfn hln hnip
    unfold notifyTargets
    rw [if_neg (by simp [hchat])]
    unfold resolveTargets
    simp only []
    rw [if_neg (by simp [hnip]), if_neg (by simp [husr]),
      if_neg (by simp [hfn]), if_neg (by simp [hln])]

/-- A snapshot matching the spec's resolver example. -/
def resolverSubs : SubsMap :=
  [(1, [("username", some "eve")]), (2, [("username", some "mallory")])]

/-- A request filtering on `username="eve"` only. -/
def reqEve : NotifyRequest := ⟨"hi", none, some "eve", none, none, none⟩

/-- Witness for C8: in the spec's example, chat id 1 is selected by the
`username="eve"` filter. -/
theorem C8_resolver_witness : 1 ∈ notifyTargets resolverSubs reqEve :=
  ((C8_resolver resolverSubs reqEve).1 "eve" 1 rfl rfl (by decide) rfl).mpr
    ⟨[("username", some "eve")], "eve", by decide, rfl, rfl⟩

/-- C10: both normalizers of the file backend emit records with exactly the
five keys `first_name`, `last_name`, `username`, `subscribed_at`,
`updated_at`, silently discarding anything else — in particular `nip`; hence
every record persisted by the PUT pipeline (which saves through
`_save_subscribers_map`) carries no `nip`, and every record produced by the
dict branch of `_load_subscribers_map` carries no `nip`, so an identifier
stored via HTTP PUT does not survive a file-backend save/load round trip. -/
theorem C10_five_key_records :
    (∀ m, dkeys (saveNorm m)
      = ["first_name", "last_name", "username", "subscribed_at", "updated_at"]) ∧
    (∀ m, dget (saveNorm m) "nip" = none) ∧
    (∀ m, dkeys (loadNorm m)
      = ["first_name", "last_name", "username", "subscribed_at", "updated_at"]) ∧
    (∀ m, dget (loadNorm m) "nip" = none) ∧
    (∀ fs nowLoad ts now cid fn ln un s, ∃ entries,
      (update_subscriber fs nowLoad ts now cid fn ln un (some s)).1.main
        = FileData.jdict entries ∧
      ∀ cid2 m, aget entries cid2 = some m →
        dget m "nip" = none ∧
        dkeys m = ["first_name", "last_name", "username", "subscribed_at",
          "updated_at"]) ∧
    (∀ fs nowLoad ts entries, fs.main = FileData.jdict entries →
      ∀ cid m, aget (load_subscribers_map fs nowLoad ts).2 cid = some m →
        dget m "nip" = none ∧
        dkeys m = ["first_name", "last_name", "username", "subscribed_at",
          "updated_at"]) := by
  refine ⟨fun m => rfl, fun m => rfl, fun m => rfl, fun m => rfl, ?_, ?_⟩
  · intro fs nowLoad ts now cid fn ln un s
    unfold update_subscriber
    simp only []
    refine ⟨_, rfl, ?_⟩
    intro cid2 m hm
    rw [aget_map_snd] at hm
    cases ha : aget (update_subscriber_core (load_subscribers_map fs nowLoad ts).2
        now cid fn ln un (some s)).1 cid2 with
    | none =>
        rw [ha] at hm
        cases hm
    | some v =>
        rw [ha] at hm
        have hmv : saveNorm v = m := by
          simpa using hm
        subst hmv
        exact ⟨rfl, rfl⟩
  · intro fs nowLoad ts entries h cid m hm
    have h2 : (load_subscribers_map fs nowLoad ts).2
        = entries.foldl (fun acc p => aset acc p.1 (loadNorm p.2)) [] := by
      unfold load_subscribers_map
      rw [h]
    rw [h2] at hm
    obtain ⟨v, hv⟩ := aget_foldl_aset_map loadNorm entries []
      (by
        intro q mm hqq
        simp [aget] at hqq) cid m hm
    subst hv
    exact ⟨rfl, rfl⟩

/-- A store whose single record carries a `nip` key. -/
def fsNipStore : FS :=
  ⟨"subscribers.json",
   FileData.jdict
     [(9, [("nip", some "K123"), ("first_name", some "A"),
       ("last_name", some "B")])], []⟩

/-- Witness for C10: loading the nip-carrying store yields a record whose
`nip` is gone and whose keys are exactly the five known ones. -/
theorem C10_five_key_records_witness :
    dget (loadNorm [("nip", some "K123"), ("first_name", some "A"),
      ("last_name", some "B")]) "nip" = none ∧
    dkeys (loadNorm [("nip", some "K123"), ("first_name", some "A"),
      ("last_name", some "B")])
      = ["first_name", "last_name", "username", "subscribed_at", "updated_at"] :=
  C10_five_key_records.2.2.2.2.2 fsNipStore "TL" "TS"
    [(9, [("nip", some "K123"), ("first_name", some "A"),
      ("last_name", some "B")])] rfl 9
    (loadNorm [("nip", some "K123"), ("first_name", some "A"),
      ("last_name", some "B")]) rfl

end BotTele








